import Mathlib

/-!
Verification of the thin orchestration logic of a YouTube audio downloader
(`src/backend/youtube_downloader.py`).

The downloader's own logic — URL validation by a fixed regular expression,
output-path templating, locating the newest produced file, renaming it to a
sanitized user-chosen name, and best-effort tag writing — is embedded below as
executable Lean definitions.  The external engine (yt-dlp), the filesystem and
the tag library (mutagen) are modelled by an explicit environment record
describing the outcome of each external call, and the downloader instance's
mutable attributes (`ydl_opts['outtmpl']`, `current_video_info`) by an explicit
state record threaded through calls.
-/

/-! ## URL validation

`is_valid_youtube_url` applies Python `re.match` with the pattern

  (https?://)?(www\.)?(youtube|youtu|youtube-nocookie)\.(com|be)/
  (watch\?v=|embed/|v/|.+\?v=)?([^&=%\?]{11})

`re.match` anchors at the start of the string only; success is the existence
of some parse.  The matcher below decides exactly that existence, compiled
clause by clause from the pattern. -/

/-- Try to remove the expected characters `p` from the front of `s`;
`some r` exactly when `s = p ++ r`. -/
def chomp : List Char → List Char → Option (List Char)
  | [], s => some s
  | _ :: _, [] => none
  | p :: ps, c :: cs => if p = c then chomp ps cs else none

/-- Remove the expected characters `p` from the front of `s` and continue
with `k`; `false` when `p` is not at the front. -/
def chompThen (p : List Char) (k : List Char → Bool) (s : List Char) : Bool :=
  match chomp p s with
  | some r => k r
  | none => false

/-- A character admitted by the character class `[^&=%\?]` of the pattern. -/
def idCharOK (c : Char) : Bool := !(c == '&' || c == '=' || c == '%' || c == '?')

/-- `([^&=%\?]{11})` at the current position: eleven admissible characters
(anything may follow, since `re.match` does not anchor the end). -/
def matchVid (s : List Char) : Bool :=
  decide (11 ≤ s.length) && (s.take 11).all idCharOK

/-- A character matched by `.` in the pattern (any character but newline;
`re.DOTALL` is not set). -/
def dotChar (c : Char) : Bool := c != '\n'

/-- `\?v=` followed by the eleven-character class. -/
def qvVid (s : List Char) : Bool :=
  match chomp ['?', 'v', '='] s with
  | some r => matchVid r
  | none => false

/-- The alternative `.+\?v=` followed by the eleven-character class:
one or more non-newline characters, then `?v=`, then the identifier class. -/
def dotPlusQvVid : List Char → Bool
  | [] => false
  | c :: rest => dotChar c && (qvVid rest || dotPlusQvVid rest)

/-- What may follow `host/`: the optional group
`(watch\?v=|embed/|v/|.+\?v=)?` and then `([^&=%\?]{11})`. -/
def matchAfterHost (s : List Char) : Bool :=
  matchVid s
    || chompThen "watch?v=".data matchVid s
    || chompThen "embed/".data matchVid s
    || chompThen "v/".data matchVid s
    || dotPlusQvVid s

/-- The six host spellings generated by `(youtube|youtu|youtube-nocookie)\.(com|be)`. -/
def hostNames : List (List Char) :=
  ["youtube.com".data, "youtube.be".data, "youtu.com".data, "youtu.be".data,
   "youtube-nocookie.com".data, "youtube-nocookie.be".data]

/-- `(youtube|youtu|youtube-nocookie)\.(com|be)/` and the rest. -/
def matchHostTail (s : List Char) : Bool :=
  hostNames.any (fun h => chompThen (h ++ ['/']) matchAfterHost s)

/-- The optional `(www\.)?` and the rest. -/
def matchFromWww (s : List Char) : Bool :=
  matchHostTail s || chompThen "www.".data matchHostTail s

/-- The optional `(https?://)?` and the rest: the full anchored-at-start match. -/
def ytUrlMatch (s : List Char) : Bool :=
  matchFromWww s
    || chompThen "http://".data matchFromWww s
    || chompThen "https://".data matchFromWww s

/-- `YouTubeDownloader.is_valid_youtube_url`: Python
`re.match(pattern, url) is not None`. -/
def is_valid_youtube_url (url : String) : Bool := ytUrlMatch url.data

/-! ## Filename sanitization

Both call sites in `download_audio` (the output-template site at line 123 and
the rename site at line 143) run `re.sub(r'[<>:"/\\|?*]', '', output_filename)`. -/

/-- A character of the illegal set `<>:"/\|?*`. -/
def illegalChar (c : Char) : Bool :=
  c == '<' || c == '>' || c == ':' || c == '"' || c == '/' || c == '\\' ||
    c == '|' || c == '?' || c == '*'

/-- Python `re.sub` with a single-character class pattern: every character
matched by `p` is replaced by `repl`, all others are kept in order. -/
def reSubCharClass (p : Char → Bool) (repl : List Char) : List Char → List Char
  | [] => []
  | c :: cs => if p c then repl ++ reSubCharClass p repl cs else c :: reSubCharClass p repl cs

/-- The `safe_filename` computed at the output-template site (line 123). -/
def safe_filename_template (s : String) : String :=
  String.mk (reSubCharClass illegalChar [] s.data)

/-- The `safe_filename` computed at the rename site (line 143). -/
def safe_filename_rename (s : String) : String :=
  String.mk (reSubCharClass illegalChar [] s.data)

/-! ## Data model

`get_video_info` builds a dictionary from the engine's info with per-field
defaults; an engine exception yields `None`.  The raw engine info is modelled
with one `Option` per field the code reads (`info.get(key, default)`). -/

/-- The fields `get_video_info` reads from the engine's extraction result;
`none` models an absent key. -/
structure RawInfo where
  title : Option String
  uploader : Option String
  duration : Option Nat
  view_count : Option Nat
deriving DecidableEq, Repr

/-- The dictionary returned by `get_video_info` on success. -/
structure VideoInfo where
  title : String
  uploader : String
  duration : Nat
  view_count : Nat
deriving DecidableEq, Repr

/-- `YouTubeDownloader.get_video_info`: the argument models the outcome of
`ydl.extract_info` (`none` = the engine raised); on success each field falls
back to its default when the engine omitted it, and on an exception the
method returns `None`. -/
def get_video_info : Option RawInfo → Option VideoInfo
  | none => none
  | some r =>
      some ⟨r.title.getD "Unknown", r.uploader.getD "Unknown",
            r.duration.getD 0, r.view_count.getD 0⟩

/-- An MP3 file found in the output directory: its bare filename and its
creation timestamp (`os.path.getctime`). -/
structure MP3File where
  name : String
  ctime : Nat
deriving DecidableEq, Repr

/-- Which of the three tag I/O steps of `add_metadata` raise: opening the
container (`MP3(...)` / `add_tags`), setting a field (`tags.add`), or
saving (`audio_file.save`). -/
structure TagEnv where
  openRaises : Bool
  setRaises : Bool
  saveRaises : Bool
deriving DecidableEq, Repr

/-- Outcomes of all external calls made during one `download_audio` call:
the engine's metadata extraction, whether `ydl.download` raises, whether the
rename raises, the `*.mp3` files present in the output directory after the
engine invocation (`glob("*.mp3")`), and the tag-library behaviour. -/
structure Env where
  rawInfo : Option RawInfo
  downloadRaises : Bool
  renameRaises : Bool
  filesAfter : List MP3File
  tagEnv : TagEnv
deriving DecidableEq, Repr

/-- The mutable attributes of a `YouTubeDownloader` instance: the output
directory, the current `ydl_opts['outtmpl']`, and `current_video_info`
(`none` models the attribute not existing yet, as tested by `hasattr`). -/
structure DState where
  output_dir : String
  outtmpl : String
  current_video_info : Option VideoInfo
deriving DecidableEq, Repr

/-- `YouTubeDownloader.__init__`: the template starts as
`output_dir / '%(title)s.%(ext)s'` and `current_video_info` does not exist. -/
def downloader_init (output_dir : String) : DState :=
  ⟨output_dir, output_dir ++ "/%(title)s.%(ext)s", none⟩

/-- The observable external effects of one `download_audio` call:
whether metadata was fetched, the `outtmpl` passed to the engine when it was
invoked for download, the rename performed (old bare name, new bare name),
and the outcome of the tag write when one was attempted. -/
structure Trace where
  fetchedMetadata : Bool
  usedTemplate : Option String
  renamed : Option (String × String)
  tagResult : Option (Option (List (String × String)))
deriving DecidableEq, Repr

/-- The trace of a call that performed no external action beyond validation. -/
def Trace.empty : Trace := ⟨false, none, none, none⟩

/-- `max(downloaded_files, key=os.path.getctime)`: fold keeping the current
maximum, replacing it only on a strictly larger timestamp (so, as in Python,
the first of several tied maxima wins). -/
def latestFile (best : MP3File) : List MP3File → MP3File
  | [] => best
  | g :: gs => latestFile (if best.ctime < g.ctime then g else best) gs

/-- `YouTubeDownloader.add_metadata`: returns the ID3 frames written
(`TIT2` title, `TPE1` artist, `TALB` synthesized album), or `none` when any
tag I/O step raised — the exception is caught inside the method, so the
caller observes only this value and never an exception. -/
def add_metadata (te : TagEnv) (video_info : Option VideoInfo) :
    Option (List (String × String)) :=
  if te.openRaises then none
  else
    match video_info with
    | some vi =>
        if te.setRaises then none
        else
          let frames :=
            (if vi.title ≠ "" then [("TIT2", vi.title)] else []) ++
            (if vi.uploader ≠ "" then [("TPE1", vi.uploader)] else []) ++
            (if vi.uploader ≠ "" then [("TALB", "YouTube - " ++ vi.uploader)] else [])
          if te.saveRaises then none else some frames
    | none => if te.saveRaises then none else some []

/-- `YouTubeDownloader.download_audio`: returns the result
(`some path` or `none`), the instance state after the call, and the trace of
external effects.  Mirrors the source line by line: URL validation, metadata
fetch, storing `current_video_info`, the destructive rewrite of
`ydl_opts['outtmpl']` when a custom name is given, the engine invocation,
the `glob("*.mp3")` scan, the newest-file selection, the optional rename,
and the best-effort tag write. -/
def download_audio (st : DState) (env : Env) (url : String)
    (output_filename : Option String) : Option String × DState × Trace :=
  if is_valid_youtube_url url then
    match get_video_info env.rawInfo with
    | none => (none, st, ⟨true, none, none, none⟩)
    | some info =>
      let st1 : DState := { st with current_video_info := some info }
      let st2 : DState :=
        match output_filename with
        | some f =>
            { st1 with
              outtmpl := st1.output_dir ++ "/" ++ safe_filename_template f ++ ".%(ext)s" }
        | none => st1
      let tr0 : Trace := ⟨true, some st2.outtmpl, none, none⟩
      if env.downloadRaises then (none, st2, tr0)
      else
        match env.filesAfter with
        | [] => (none, st2, tr0)
        | f0 :: fs =>
          let latest := latestFile f0 fs
          match output_filename with
          | some f =>
            let newName := safe_filename_rename f ++ ".mp3"
            let tr1 : Trace := { tr0 with renamed := some (latest.name, newName) }
            if env.renameRaises then (none, st2, tr1)
            else
              let tagRes := add_metadata env.tagEnv st2.current_video_info
              (some (st2.output_dir ++ "/" ++ newName), st2,
               { tr1 with tagResult := some tagRes })
          | none =>
            let tagRes := add_metadata env.tagEnv st2.current_video_info
            (some (st2.output_dir ++ "/" ++ latest.name), st2,
             { tr0 with tagResult := some tagRes })
  else (none, st, Trace.empty)

/-! ## Basic lemmas about the matcher's building blocks -/

/-- `chomp p` succeeds on exactly the lists that start with `p`. -/
theorem chomp_append (p : List Char) : ∀ r, chomp p (p ++ r) = some r := by
  induction p with
  | nil => intro r; rfl
  | cons c ps ih => intro r; simp [chomp, ih]

/-- A successful `chomp` decomposes its input. -/
theorem chomp_eq_some {p : List Char} :
    ∀ {s r : List Char}, chomp p s = some r → s = p ++ r := by
  induction p with
  | nil => intro s r h; simpa [chomp] using h
  | cons c ps ih =>
    intro s r h
    cases s with
    | nil => simp [chomp] at h
    | cons d ds =>
      by_cases hcd : c = d
      · subst hcd
        rw [chomp, if_pos rfl] at h
        rw [List.cons_append, ih h]
      · rw [chomp, if_neg hcd] at h
        simp at h

/-- `chompThen` on an input that starts with the expected characters. -/
theorem chompThen_append (p : List Char) (k : List Char → Bool) (r : List Char) :
    chompThen p k (p ++ r) = k r := by
  unfold chompThen
  rw [chomp_append]

/-- A successful `chompThen` decomposes its input. -/
theorem chompThen_eq_true {p : List Char} {k : List Char → Bool} {s : List Char}
    (h : chompThen p k s = true) : ∃ r, s = p ++ r ∧ k r = true := by
  unfold chompThen at h
  cases hc : chomp p s with
  | none => rw [hc] at h; cases h
  | some r => rw [hc] at h; exact ⟨r, chomp_eq_some hc, h⟩

/-! ## The URL shape described by the specification

The specification reads the pattern as: optional scheme, optional `www.`,
one of the supported hostname spellings, `/`, one of the common path/query
shapes, and an 11-character video identifier.  A video identifier character
is alphanumeric, `-` or `_`. -/

/-- A character that can occur in a video identifier. -/
def isVidChar (c : Char) : Bool := c.isAlphanum || c == '-' || c == '_'

/-- The URL shape the specification describes. -/
def SpecYouTubeShape (s : List Char) : Prop :=
  ∃ scheme www host pre vid rest : List Char,
    (scheme = [] ∨ scheme = "http://".data ∨ scheme = "https://".data) ∧
    (www = [] ∨ www = "www.".data) ∧
    host ∈ hostNames ∧
    (pre = [] ∨ pre = "watch?v=".data ∨ pre = "embed/".data ∨ pre = "v/".data) ∧
    vid.length = 11 ∧ (∀ c ∈ vid, isVidChar c = true) ∧
    s = scheme ++ (www ++ (host ++ '/' :: (pre ++ (vid ++ rest))))

/-- The prefix structure every accepted string must have: optional scheme,
optional `www.`, a supported hostname spelling, `/`. -/
def HostPrefixShape (s : List Char) : Prop :=
  ∃ scheme www host rest : List Char,
    (scheme = [] ∨ scheme = "http://".data ∨ scheme = "https://".data) ∧
    (www = [] ∨ www = "www.".data) ∧
    host ∈ hostNames ∧
    s = scheme ++ (www ++ (host ++ '/' :: rest))

/-- Identifier characters are admitted by the pattern's character class. -/
theorem isVidChar_idCharOK {c : Char} (h : isVidChar c = true) : idCharOK c = true := by
  by_cases h1 : c = '&'
  · exact absurd h (by subst h1; decide)
  · by_cases h2 : c = '='
    · exact absurd h (by subst h2; decide)
    · by_cases h3 : c = '%'
      · exact absurd h (by subst h3; decide)
      · by_cases h4 : c = '?'
        · exact absurd h (by subst h4; decide)
        · simp [idCharOK, h1, h2, h3, h4]

/-- Eleven identifier characters satisfy the `([^&=%\?]{11})` clause,
whatever follows them. -/
theorem matchVid_append {vid : List Char} (rest : List Char)
    (hlen : vid.length = 11) (hc : ∀ c ∈ vid, idCharOK c = true) :
    matchVid (vid ++ rest) = true := by
  unfold matchVid
  rw [Bool.and_eq_true]
  constructor
  · rw [decide_eq_true_eq, List.length_append, hlen]
    omega
  · have htake : (vid ++ rest).take 11 = vid := by
      rw [← hlen]
      exact List.take_left vid rest
    rw [htake, List.all_eq_true]
    exact hc

/-- Any of the four common path/query shapes followed by an identifier
satisfies the optional-group-plus-identifier clause. -/
theorem matchAfterHost_of_shape {pre vid : List Char} (rest : List Char)
    (hp : pre = [] ∨ pre = "watch?v=".data ∨ pre = "embed/".data ∨ pre = "v/".data)
    (hlen : vid.length = 11) (hvc : ∀ c ∈ vid, isVidChar c = true) :
    matchAfterHost (pre ++ (vid ++ rest)) = true := by
  have hid : matchVid (vid ++ rest) = true :=
    matchVid_append rest hlen (fun c hc => isVidChar_idCharOK (hvc c hc))
  unfold matchAfterHost
  rcases hp with rfl | rfl | rfl | rfl
  · rw [List.nil_append, hid]
    rfl
  · rw [chompThen_append, hid]
    simp
  · rw [chompThen_append, hid]
    simp
  · rw [chompThen_append, hid]
    simp

/-- A supported hostname followed by `/` and an accepted tail is accepted. -/
theorem matchHostTail_of (host tail : List Char) (hh : host ∈ hostNames)
    (ht : matchAfterHost tail = true) :
    matchHostTail (host ++ '/' :: tail) = true := by
  unfold matchHostTail
  rw [List.any_eq_true]
  refine ⟨host, hh, ?_⟩
  have hsplit : host ++ '/' :: tail = (host ++ ['/']) ++ tail := by simp
  rw [hsplit, chompThen_append, ht]

/-- The optional `www.` clause. -/
theorem matchFromWww_of (www t : List Char) (hw : www = [] ∨ www = "www.".data)
    (ht : matchHostTail t = true) : matchFromWww (www ++ t) = true := by
  unfold matchFromWww
  rcases hw with rfl | rfl
  · rw [List.nil_append, ht]
    rfl
  · rw [chompThen_append, ht]
    simp

/-- Every string of the specified shape is accepted by the matcher. -/
theorem ytUrlMatch_of_shape {s : List Char} (h : SpecYouTubeShape s) :
    ytUrlMatch s = true := by
  obtain ⟨scheme, www, host, pre, vid, rest, hs, hw, hh, hp, hlen, hvc, rfl⟩ := h
  have hht := matchHostTail_of host _ hh (matchAfterHost_of_shape rest hp hlen hvc)
  have hww := matchFromWww_of www _ hw hht
  unfold ytUrlMatch
  rcases hs with rfl | rfl | rfl
  · rw [List.nil_append, hww]
    rfl
  · rw [chompThen_append, hww]
    simp
  · rw [chompThen_append, hww]
    simp

/-- An accepted tail decomposes as a supported hostname plus `/` plus rest. -/
theorem matchHostTail_shape {s : List Char} (h : matchHostTail s = true) :
    ∃ host r, host ∈ hostNames ∧ s = host ++ '/' :: r := by
  unfold matchHostTail at h
  rw [List.any_eq_true] at h
  obtain ⟨host, hmem, hct⟩ := h
  obtain ⟨r, rfl, -⟩ := chompThen_eq_true hct
  exact ⟨host, r, hmem, by simp⟩

/-- An accepted string after the scheme decomposes as optional `www.` plus
hostname plus `/` plus rest. -/
theorem matchFromWww_shape {s : List Char} (h : matchFromWww s = true) :
    ∃ www host r, (www = [] ∨ www = "www.".data) ∧ host ∈ hostNames ∧
      s = www ++ (host ++ '/' :: r) := by
  unfold matchFromWww at h
  rw [Bool.or_eq_true] at h
  rcases h with h | h
  · obtain ⟨host, r, hm, heq⟩ := matchHostTail_shape h
    exact ⟨[], host, r, Or.inl rfl, hm, by rw [heq]; rfl⟩
  · obtain ⟨t, heq, ht⟩ := chompThen_eq_true h
    obtain ⟨host, r, hm, heq2⟩ := matchHostTail_shape ht
    exact ⟨"www.".data, host, r, Or.inr rfl, hm, by rw [heq, heq2]⟩

/-- Every accepted string has the scheme/`www`/hostname prefix structure. -/
theorem ytUrlMatch_hostPrefix {s : List Char} (h : ytUrlMatch s = true) :
    HostPrefixShape s := by
  unfold ytUrlMatch at h
  rw [Bool.or_eq_true, Bool.or_eq_true] at h
  rcases h with (h | h) | h
  · obtain ⟨www, host, r, hw, hh, heq⟩ := matchFromWww_shape h
    exact ⟨[], www, host, r, Or.inl rfl, hw, hh, by rw [heq]; rfl⟩
  · obtain ⟨t, heq, ht⟩ := chompThen_eq_true h
    obtain ⟨www, host, r, hw, hh, heq2⟩ := matchFromWww_shape ht
    exact ⟨"http://".data, www, host, r, Or.inr (Or.inl rfl), hw, hh, by rw [heq, heq2]⟩
  · obtain ⟨t, heq, ht⟩ := chompThen_eq_true h
    obtain ⟨www, host, r, hw, hh, heq2⟩ := matchFromWww_shape ht
    exact ⟨"https://".data, www, host, r, Or.inr (Or.inr rfl), hw, hh, by rw [heq, heq2]⟩

/-! ## Claim C2 -/

/-- Whether `s` contains, at any position, a run of eleven consecutive
video-identifier characters — the natural meaning of "has an 11-character
video-identifier segment". -/
def hasElevenVidRun : List Char → Bool
  | [] => false
  | c :: rest =>
      (decide (11 ≤ (c :: rest).length) && ((c :: rest).take 11).all isVidChar)
        || hasElevenVidRun rest

/-- C2 counterexample: `"youtube.com/a/b/c/d/e/f"` contains no run of eleven
consecutive identifier characters anywhere (so it lacks an 11-character
video-identifier segment), yet `is_valid_youtube_url` accepts it — the
class `[^&=%\?]{11}` is satisfied by the eleven characters `a/b/c/d/e/f`,
slashes included.  This refutes the claim that every recognized-hostname
string lacking an 11-character identifier segment is rejected. -/
theorem url_regex_accepts_without_eleven_id :
    is_valid_youtube_url "youtube.com/a/b/c/d/e/f" = true ∧
    hasElevenVidRun "youtube.com/a/b/c/d/e/f".data = false := by
  constructor
  · rfl
  · rfl

/-- C2 (amended): every string of the recognized URL shape — optional
scheme, optional `www.`, a supported hostname variant, and one of the common
path/query shapes followed by an 11-character video identifier — is accepted
by `is_valid_youtube_url`; and every accepted string begins with an optional
scheme, an optional `www.`, a supported hostname variant and `/`.  The
11-character-identifier requirement of the original claim is, however, not
necessary for acceptance (see the counterexample): any eleven characters
outside `&=%?`, slashes included, satisfy the identifier clause. -/
theorem url_regex_shape_characterization :
    (∀ s : List Char, SpecYouTubeShape s → ytUrlMatch s = true) ∧
    (∀ s : List Char, ytUrlMatch s = true → HostPrefixShape s) :=
  ⟨fun _ h => ytUrlMatch_of_shape h, fun _ h => ytUrlMatch_hostPrefix h⟩

/-- Witness for C2's amended theorem at the concrete URL
`https://www.youtube.com/watch?v=dQw4w9WgXcQ`. -/
theorem url_regex_shape_characterization_witness :
    ytUrlMatch "https://www.youtube.com/watch?v=dQw4w9WgXcQ".data = true :=
  url_regex_shape_characterization.1 _
    ⟨"https://".data, "www.".data, "youtube.com".data, "watch?v=".data,
     "dQw4w9WgXcQ".data, [], Or.inr (Or.inr rfl), Or.inr rfl, by decide,
     Or.inr (Or.inl rfl), by decide, by decide, by decide⟩

/-! ## Concrete values used to instantiate the theorems -/

/-- A concrete engine extraction result. -/
def sampleRaw : RawInfo :=
  ⟨some "Never Gonna Give You Up", some "Rick Astley", some 213, some 1000000⟩

/-- A concrete environment for a fully successful download. -/
def sampleEnv : Env :=
  ⟨some sampleRaw, false, false, [⟨"Never Gonna Give You Up.mp3", 10⟩],
   ⟨false, false, false⟩⟩

/-- A concrete valid URL. -/
def sampleURL : String := "https://www.youtube.com/watch?v=dQw4w9WgXcQ"

/-! ## Claim C1 -/

/-- C1 (code bug): `download_audio` mutates the instance-held
`ydl_opts['outtmpl']` when a custom name is supplied and never restores it,
so a subsequent call on the same instance *without* a custom name hands the
engine the stale sanitized-name template rather than the
`%(title)s.%(ext)s` template the specification describes: after a first call
with name `"custom"`, a second call with no name uses
`downloads/custom.%(ext)s`, not `downloads/%(title)s.%(ext)s`. -/
theorem stale_template_second_call :
    (download_audio
        (download_audio (downloader_init "downloads") sampleEnv sampleURL
          (some "custom")).2.1
        sampleEnv sampleURL none).2.2.usedTemplate
      = some "downloads/custom.%(ext)s" ∧
    some "downloads/custom.%(ext)s" ≠ some "downloads/%(title)s.%(ext)s" := by
  constructor
  · rfl
  · decide

/-! ## Claim C3 -/

/-- `re.sub` of a single-character class with the empty replacement is
exactly a filter keeping the non-matching characters in order. -/
theorem reSub_empty_filter (p : Char → Bool) :
    ∀ l : List Char, reSubCharClass p [] l = l.filter (fun c => !p c) := by
  intro l
  induction l with
  | nil => rfl
  | cons c cs ih =>
    by_cases h : p c = true
    · simp [reSubCharClass, List.filter_cons, h, ih]
    · rw [Bool.not_eq_true] at h
      simp [reSubCharClass, List.filter_cons, h, ih]

/-- C3: the sanitized name computed for the output template and the one
computed for the final rename are identical, contain no character of the
illegal set `<>:"/\|?*`, and are exactly the input with the illegal
characters removed and every other character kept unchanged in order. -/
theorem sanitize_filename_spec (s : String) :
    safe_filename_template s = safe_filename_rename s ∧
    (∀ c ∈ (safe_filename_template s).data, illegalChar c = false) ∧
    (safe_filename_template s).data = s.data.filter (fun c => !illegalChar c) := by
  refine ⟨rfl, ?_, reSub_empty_filter illegalChar s.data⟩
  intro c hc
  have hf : (safe_filename_template s).data = s.data.filter (fun c => !illegalChar c) :=
    reSub_empty_filter illegalChar s.data
  rw [hf] at hc
  have := (List.mem_filter.mp hc).2
  simpa using this

/-- Witness for C3 at the concrete name `"My:Song"`. -/
theorem sanitize_filename_spec_witness :
    safe_filename_template "My:Song" = safe_filename_rename "My:Song" ∧
    illegalChar 'M' = false :=
  ⟨(sanitize_filename_spec "My:Song").1,
   (sanitize_filename_spec "My:Song").2.1 'M' (by decide)⟩

/-! ## Claim C6 -/

/-- C6: when the URL does not match the recognized shape, `download_audio`
returns an absent result, leaves the instance state untouched, and performs
no external action at all — no metadata fetch, no engine invocation, no
rename and no tag write (the empty trace). -/
theorem invalid_url_no_action (st : DState) (env : Env) (url : String)
    (output_filename : Option String) (h : is_valid_youtube_url url = false) :
    download_audio st env url output_filename = (none, st, Trace.empty) := by
  simp [download_audio, h]

/-- Witness for C6 at the concrete input `"not a url"`. -/
theorem invalid_url_no_action_witness :
    download_audio (downloader_init "downloads") sampleEnv "not a url" none
      = (none, downloader_init "downloads", Trace.empty) :=
  invalid_url_no_action (downloader_init "downloads") sampleEnv "not a url" none
    (by decide)

/-! ## Claim C4 -/

/-- C4: when the fetch, locate and (optional) rename stages succeed, the
result of `download_audio` is the same whatever the tag library does — any
failure while opening the tag container, setting a field or saving is
swallowed inside `add_metadata`, and the produced file's path is still
returned (the result is never absent). -/
theorem tag_write_failure_preserves_result (st : DState) (env : Env)
    (url : String) (n : Option String) (te : TagEnv) (r : RawInfo)
    (hv : is_valid_youtube_url url = true) (hi : env.rawInfo = some r)
    (hd : env.downloadRaises = false) (hr : env.renameRaises = false)
    (hf : env.filesAfter ≠ []) :
    (download_audio st { env with tagEnv := te } url n).1
      = (download_audio st env url n).1 ∧
    (download_audio st env url n).1 ≠ none := by
  obtain ⟨raw, dl, rn, files, te0⟩ := env
  simp only at hi hd hr hf
  subst hi hd hr
  cases files with
  | nil => exact absurd rfl hf
  | cons f0 fs =>
    cases n with
    | none => simp [download_audio, hv, get_video_info]
    | some name => simp [download_audio, hv, get_video_info]

/-- Witness for C4: a tag environment in which every tag step raises still
yields the same, present, result path. -/
theorem tag_write_failure_preserves_result_witness :
    (download_audio (downloader_init "downloads")
        { sampleEnv with tagEnv := ⟨true, true, true⟩ } sampleURL (some "song")).1
      = (download_audio (downloader_init "downloads") sampleEnv sampleURL
          (some "song")).1 ∧
    (download_audio (downloader_init "downloads") sampleEnv sampleURL
        (some "song")).1 ≠ none :=
  tag_write_failure_preserves_result (downloader_init "downloads") sampleEnv
    sampleURL (some "song") ⟨true, true, true⟩ sampleRaw (by decide) rfl rfl rfl
    (by decide)

/-! ## Claim C5 -/

/-- C5: `get_video_info` substitutes the documented default for every field
the engine omits (`"Unknown"` titles/uploaders, zero duration and view
count); an engine exception makes it return an absent result, upon which
`download_audio` aborts with an absent result. -/
theorem video_info_defaults_and_error :
    (∀ (r : RawInfo) (v : VideoInfo), get_video_info (some r) = some v →
      (r.title = none → v.title = "Unknown") ∧
      (r.uploader = none → v.uploader = "Unknown") ∧
      (r.duration = none → v.duration = 0) ∧
      (r.view_count = none → v.view_count = 0)) ∧
    get_video_info none = none ∧
    (∀ (st : DState) (env : Env) (url : String) (n : Option String),
      is_valid_youtube_url url = true → env.rawInfo = none →
      (download_audio st env url n).1 = none) := by
  refine ⟨?_, rfl, ?_⟩
  · intro r v h
    rw [get_video_info, Option.some_inj] at h
    subst h
    refine ⟨?_, ?_, ?_, ?_⟩ <;> intro he <;> simp [he]
  · intro st env url n hv hi
    obtain ⟨raw, dl, rn, files, te⟩ := env
    simp only at hi
    subst hi
    simp [download_audio, hv, get_video_info]

/-- Witness for C5: a fully omissive engine record yields all defaults, and
an engine exception aborts the concrete download. -/
theorem video_info_defaults_and_error_witness :
    (VideoInfo.mk "Unknown" "Unknown" 0 0).title = "Unknown" ∧
    (download_audio (downloader_init "downloads")
        ⟨none, false, false, [], ⟨false, false, false⟩⟩ sampleURL none).1 = none :=
  ⟨(video_info_defaults_and_error.1 ⟨none, none, none, none⟩
      ⟨"Unknown", "Unknown", 0, 0⟩ rfl).1 rfl,
   video_info_defaults_and_error.2.2 (downloader_init "downloads")
     ⟨none, false, false, [], ⟨false, false, false⟩⟩ sampleURL none (by decide) rfl⟩

/-! ## Claim C7 -/

/-- C7: when the post-invocation scan finds no `*.mp3` file in the output
directory, `download_audio` yields an absent result and neither a rename nor
a tag write takes place. -/
theorem empty_scan_aborts (st : DState) (env : Env) (url : String)
    (output_filename : Option String) (r : RawInfo)
    (hv : is_valid_youtube_url url = true) (hi : env.rawInfo = some r)
    (hd : env.downloadRaises = false) (hf : env.filesAfter = []) :
    (download_audio st env url output_filename).1 = none ∧
    (download_audio st env url output_filename).2.2.renamed = none ∧
    (download_audio st env url output_filename).2.2.tagResult = none := by
  obtain ⟨raw, dl, rn, files, te⟩ := env
  simp only at hi hd hf
  subst hi hd hf
  cases output_filename <;> simp [download_audio, hv, get_video_info]

/-- Witness for C7: the concrete successful-fetch environment with an empty
output directory. -/
theorem empty_scan_aborts_witness :
    (download_audio (downloader_init "downloads")
        { sampleEnv with filesAfter := [] } sampleURL none).1 = none ∧
    (download_audio (downloader_init "downloads")
        { sampleEnv with filesAfter := [] } sampleURL none).2.2.renamed = none ∧
    (download_audio (downloader_init "downloads")
        { sampleEnv with filesAfter := [] } sampleURL none).2.2.tagResult = none :=
  empty_scan_aborts (downloader_init "downloads")
    { sampleEnv with filesAfter := [] } sampleURL none sampleRaw (by decide) rfl
    rfl rfl

/-! ## Claim C8 -/

/-- C8: with exactly one matching file in the directory and a custom name
given, `download_audio` renames that file to `<sanitized-name>.mp3` inside
the output directory and returns that renamed path. -/
theorem custom_name_single_file_rename (st : DState) (env : Env)
    (url name : String) (f : MP3File) (r : RawInfo)
    (hv : is_valid_youtube_url url = true) (hi : env.rawInfo = some r)
    (hd : env.downloadRaises = false) (hr : env.renameRaises = false)
    (hf : env.filesAfter = [f]) :
    (download_audio st env url (some name)).1
      = some (st.output_dir ++ "/" ++ (safe_filename_rename name ++ ".mp3")) ∧
    (download_audio st env url (some name)).2.2.renamed
      = some (f.name, safe_filename_rename name ++ ".mp3") := by
  obtain ⟨raw, dl, rn, files, te⟩ := env
  simp only at hi hd hr hf
  subst hi hd hr hf
  simp [download_audio, hv, get_video_info, latestFile]

/-- Witness for C8 at the concrete name `"My:Song"`: the single produced
file is renamed to `MySong.mp3`. -/
theorem custom_name_single_file_rename_witness :
    (download_audio (downloader_init "downloads") sampleEnv sampleURL
        (some "My:Song")).1
      = some ("downloads" ++ "/" ++ (safe_filename_rename "My:Song" ++ ".mp3")) ∧
    (download_audio (downloader_init "downloads") sampleEnv sampleURL
        (some "My:Song")).2.2.renamed
      = some ("Never Gonna Give You Up.mp3", safe_filename_rename "My:Song" ++ ".mp3") :=
  custom_name_single_file_rename (downloader_init "downloads") sampleEnv
    sampleURL "My:Song" ⟨"Never Gonna Give You Up.mp3", 10⟩ sampleRaw (by decide)
    rfl rfl rfl rfl

/-! ## Claim C9 -/

/-- `latestFile` returns the accumulator or a member of the list. -/
theorem latestFile_mem (f0 : MP3File) :
    ∀ fs : List MP3File, latestFile f0 fs = f0 ∨ latestFile f0 fs ∈ fs := by
  intro fs
  induction fs generalizing f0 with
  | nil => exact Or.inl rfl
  | cons g gs ih =>
    rw [latestFile]
    rcases ih (if f0.ctime < g.ctime then g else f0) with h | h
    · rw [h]
      by_cases hc : f0.ctime < g.ctime
      · rw [if_pos hc]
        exact Or.inr (List.mem_cons_self g gs)
      · rw [if_neg hc]
        exact Or.inl rfl
    · exact Or.inr (List.mem_cons_of_mem g h)

/-- `latestFile` dominates the accumulator and every list member. -/
theorem latestFile_maximal (f0 : MP3File) :
    ∀ fs : List MP3File, f0.ctime ≤ (latestFile f0 fs).ctime ∧
      ∀ g ∈ fs, g.ctime ≤ (latestFile f0 fs).ctime := by
  intro fs
  induction fs generalizing f0 with
  | nil => exact ⟨Nat.le_refl _, by simp⟩
  | cons g gs ih =>
    obtain ⟨h1, h2⟩ := ih (if f0.ctime < g.ctime then g else f0)
    have hf0b : f0.ctime ≤ (if f0.ctime < g.ctime then g else f0).ctime := by
      by_cases hc : f0.ctime < g.ctime
      · rw [if_pos hc]; exact Nat.le_of_lt hc
      · rw [if_neg hc]
    have hgb : g.ctime ≤ (if f0.ctime < g.ctime then g else f0).ctime := by
      by_cases hc : f0.ctime < g.ctime
      · rw [if_pos hc]
      · rw [if_neg hc]; exact Nat.le_of_not_lt hc
    refine ⟨?_, ?_⟩
    · rw [latestFile]
      exact Nat.le_trans hf0b h1
    · intro x hx
      rw [latestFile]
      rcases List.mem_cons.mp hx with rfl | hx
      · exact Nat.le_trans hgb h1
      · exact h2 x hx

/-- C9: with matching files present and no custom name, `download_audio`
returns, unrenamed, the path of a file of the scan whose creation timestamp
is maximal among all scanned files (the code's `max(..., key=getctime)`),
and performs no rename; with exactly one file this is that file under its
engine-chosen name. -/
theorem latest_file_selected_unrenamed (st : DState) (env : Env) (url : String)
    (f0 : MP3File) (fs : List MP3File) (r : RawInfo)
    (hv : is_valid_youtube_url url = true) (hi : env.rawInfo = some r)
    (hd : env.downloadRaises = false) (hf : env.filesAfter = f0 :: fs) :
    (download_audio st env url none).1
      = some (st.output_dir ++ "/" ++ (latestFile f0 fs).name) ∧
    latestFile f0 fs ∈ env.filesAfter ∧
    (∀ g ∈ env.filesAfter, g.ctime ≤ (latestFile f0 fs).ctime) ∧
    (download_audio st env url none).2.2.renamed = none := by
  obtain ⟨raw, dl, rn, files, te⟩ := env
  simp only at hi hd hf
  subst hi hd hf
  refine ⟨?_, ?_, ?_, ?_⟩
  · simp [download_audio, hv, get_video_info]
  · rcases latestFile_mem f0 fs with h | h
    · rw [h]; exact List.mem_cons_self f0 fs
    · exact List.mem_cons_of_mem f0 h
  · intro g hg
    rcases List.mem_cons.mp hg with rfl | hg
    · exact (latestFile_maximal g fs).1
    · exact (latestFile_maximal f0 fs).2 g hg
  · simp [download_audio, hv, get_video_info]

/-- Witness for C9: among three produced files the one with the largest
creation timestamp is returned under its own name, with no rename. -/
theorem latest_file_selected_unrenamed_witness :
    (download_audio (downloader_init "downloads")
        { sampleEnv with filesAfter := [⟨"a.mp3", 1⟩, ⟨"b.mp3", 5⟩, ⟨"c.mp3", 3⟩] }
        sampleURL none).1
      = some ("downloads" ++ "/" ++ (latestFile ⟨"a.mp3", 1⟩ [⟨"b.mp3", 5⟩, ⟨"c.mp3", 3⟩]).name) ∧
    latestFile ⟨"a.mp3", 1⟩ [⟨"b.mp3", 5⟩, ⟨"c.mp3", 3⟩]
      ∈ ({ sampleEnv with filesAfter := [⟨"a.mp3", 1⟩, ⟨"b.mp3", 5⟩, ⟨"c.mp3", 3⟩] } : Env).filesAfter ∧
    (∀ g ∈ ({ sampleEnv with filesAfter := [⟨"a.mp3", 1⟩, ⟨"b.mp3", 5⟩, ⟨"c.mp3", 3⟩] } : Env).filesAfter,
      g.ctime ≤ (latestFile ⟨"a.mp3", 1⟩ [⟨"b.mp3", 5⟩, ⟨"c.mp3", 3⟩]).ctime) ∧
    (download_audio (downloader_init "downloads")
        { sampleEnv with filesAfter := [⟨"a.mp3", 1⟩, ⟨"b.mp3", 5⟩, ⟨"c.mp3", 3⟩] }
        sampleURL none).2.2.renamed = none :=
  latest_file_selected_unrenamed (downloader_init "downloads")
    { sampleEnv with filesAfter := [⟨"a.mp3", 1⟩, ⟨"b.mp3", 5⟩, ⟨"c.mp3", 3⟩] }
    sampleURL ⟨"a.mp3", 1⟩ [⟨"b.mp3", 5⟩, ⟨"c.mp3", 3⟩] sampleRaw (by decide) rfl
    rfl rfl

/-! ## Claim C10 -/

/-- Appending strings concatenates their character lists. -/
theorem str_data_append (a b : String) : (a ++ b).data = a.data ++ b.data := by
  cases a; cases b; rfl

/-- The characters end with `.mp3`. -/
def endsWithMp3 (l : List Char) : Bool :=
  decide (4 ≤ l.length) && decide (l.drop (l.length - 4) = ".mp3".data)

/-- `p` is a path directly inside `dir`: it is `dir`, a separator, and a
bare (slash-free) filename carrying the `.mp3` extension. -/
def directlyInDirWithMp3 (dir p : String) : Bool :=
  match chomp (dir ++ "/").data p.data with
  | some nm => nm.all (fun c => c != '/') && endsWithMp3 nm
  | none => false

/-- Anything extended with `.mp3` ends with `.mp3`. -/
theorem endsWithMp3_append (x : List Char) : endsWithMp3 (x ++ ".mp3".data) = true := by
  unfold endsWithMp3
  rw [Bool.and_eq_true, decide_eq_true_eq, decide_eq_true_eq]
  have hlen4 : (".mp3".data : List Char).length = 4 := rfl
  constructor
  · rw [List.length_append, hlen4]
    omega
  · rw [List.length_append, hlen4, Nat.add_sub_cancel, List.drop_left]

/-- Sanitized names contain no slash (the slash is in the illegal set). -/
theorem sanitized_no_slash (s : String) :
    (safe_filename_rename s).data.all (fun c => c != '/') = true := by
  rw [List.all_eq_true]
  intro c hc
  have hf : (safe_filename_rename s).data = s.data.filter (fun c => !illegalChar c) :=
    reSub_empty_filter illegalChar s.data
  rw [hf] at hc
  have h2 := (List.mem_filter.mp hc).2
  rw [bne_iff_ne]
  intro hcc
  subst hcc
  exact absurd h2 (by decide)

/-- A path built as `dir ++ "/" ++ tail` for a slash-free `.mp3` tail lies
directly inside `dir`. -/
theorem directlyInDir_build (dir tail : String)
    (h1 : tail.data.all (fun c => c != '/') = true)
    (h2 : endsWithMp3 tail.data = true) :
    directlyInDirWithMp3 dir (dir ++ "/" ++ tail) = true := by
  unfold directlyInDirWithMp3
  rw [str_data_append (dir ++ "/") tail, chomp_append]
  simp [h1, h2]

/-- C10: whenever `download_audio` returns a present result, the returned
value is a path directly inside the configured output directory whose bare
filename ends with `.mp3` — in the renamed case because sanitization strips
slashes and `.mp3` is appended, and in the unrenamed case because the path
comes from the directory's own `*.mp3` scan (whose entries are bare
`.mp3` filenames, the stated well-formedness of the scan). -/
theorem result_path_in_output_dir (st : DState) (env : Env) (url : String)
    (n : Option String) (p : String)
    (hwf : ∀ f ∈ env.filesAfter,
      f.name.data.all (fun c => c != '/') = true ∧ endsWithMp3 f.name.data = true)
    (hres : (download_audio st env url n).1 = some p) :
    directlyInDirWithMp3 st.output_dir p = true := by
  obtain ⟨raw, dl, rn, files, te⟩ := env
  simp only at hwf
  by_cases hv : is_valid_youtube_url url = true
  · cases raw with
    | none => simp [download_audio, hv, get_video_info] at hres
    | some r =>
      cases dl with
      | true => simp [download_audio, hv, get_video_info] at hres
      | false =>
        cases files with
        | nil => simp [download_audio, hv, get_video_info] at hres
        | cons f0 fs =>
          cases n with
          | some name =>
            cases rn with
            | true => simp [download_audio, hv, get_video_info] at hres
            | false =>
              simp [download_audio, hv, get_video_info] at hres
              subst hres
              apply directlyInDir_build
              · rw [str_data_append, List.all_append, Bool.and_eq_true]
                exact ⟨sanitized_no_slash name, by decide⟩
              · rw [str_data_append]
                exact endsWithMp3_append _
          | none =>
            simp [download_audio, hv, get_video_info] at hres
            subst hres
            have hmem : latestFile f0 fs ∈ f0 :: fs := by
              rcases latestFile_mem f0 fs with h | h
              · rw [h]; exact List.mem_cons_self f0 fs
              · exact List.mem_cons_of_mem f0 h
            obtain ⟨h1, h2⟩ := hwf (latestFile f0 fs) hmem
            exact directlyInDir_build st.output_dir (latestFile f0 fs).name h1 h2
  · have hvf : is_valid_youtube_url url = false := by
      revert hv
      cases is_valid_youtube_url url <;> simp
    simp [download_audio, hvf] at hres

/-- Witness for C10: the concrete successful no-name download's result lies
directly inside `downloads` and ends with `.mp3`. -/
theorem result_path_in_output_dir_witness :
    directlyInDirWithMp3 "downloads" "downloads/Never Gonna Give You Up.mp3" = true :=
  result_path_in_output_dir (downloader_init "downloads") sampleEnv sampleURL
    none "downloads/Never Gonna Give You Up.mp3" (by decide) (by decide)
